import Mathlib

/-!
Verification development for the pyudpbd UDP block device server.

The definitions below are a shallow embedding of the Python sources:
`pyudpbd/proto.py` (wire codec), `pyudpbd/blkdev.py` (MemoryBlockDevice),
and `pyudpbd/server.py` (BlockDeviceServer).  Bytes are modelled as
natural numbers (a well-formed datagram has entries below 256), machine
integers as Nat with explicit masking where the code masks, and the
signed Python integer `_write_size_left` as Int.  Fallible decoding
(Python raising `struct.error` or `ValueError`) is modelled with
`Except String`.  The observability counters `_total_read` and
`_total_written` of the block device and the socket plumbing are not
modelled; no claim mentions them.
-/

set_option maxHeartbeats 1000000

set_option maxRecDepth 100000

set_option linter.unusedVariables false

deriving instance DecidableEq for Except

/-- RDMA_MAX_PAYLOAD from proto.py. -/
def RDMA_MAX_PAYLOAD : Nat := 1466

/-- Command tag values of the Command enum in proto.py. -/
def UDPBD_CMD_INFO : Nat := 0x00

/-- INFO_REPLY tag. -/
def UDPBD_CMD_INFO_REPLY : Nat := 0x01

/-- READ tag. -/
def UDPBD_CMD_READ : Nat := 0x02

/-- READ_RDMA tag. -/
def UDPBD_CMD_READ_RDMA : Nat := 0x03

/-- WRITE tag. -/
def UDPBD_CMD_WRITE : Nat := 0x04

/-- WRITE_RDMA tag. -/
def UDPBD_CMD_WRITE_RDMA : Nat := 0x05

/-- WRITE_DONE tag. -/
def UDPBD_CMD_WRITE_DONE : Nat := 0x06

/-- Header dataclass from proto.py.  The cmd field is kept as the raw
command value; Python stores the Command enum member, whose `.value`
is this number. -/
structure Header where
  cmd : Nat
  cmdid : Nat
  cmdpkt : Nat
deriving DecidableEq, Inhabited

/-- Little-endian 16-bit word from two bytes of a buffer, as read by
`struct.unpack` with a `<H` format. -/
def u16At (buf : List Nat) (i : Nat) : Nat :=
  buf.getD i 0 + 256 * buf.getD (i + 1) 0

/-- Little-endian 32-bit word from four bytes of a buffer, as read by
`struct.unpack` with a `<I` format. -/
def u32At (buf : List Nat) (i : Nat) : Nat :=
  buf.getD i 0 + 256 * buf.getD (i + 1) 0 + 65536 * buf.getD (i + 2) 0
    + 16777216 * buf.getD (i + 3) 0

/-- Two little-endian bytes of a 16-bit word, as written by `struct.pack`
with a `<H` format (the packed values are always below 2 to the 16 at the
call sites, since they are built from masked fields). -/
def u16Bytes (v : Nat) : List Nat :=
  [v % 256, v / 256 % 256]

/-- Four little-endian bytes of a 32-bit word, as written by `struct.pack`
with a `<I` format. -/
def u32Bytes (v : Nat) : List Nat :=
  [v % 256, v / 256 % 256, v / 65536 % 256, v / 16777216 % 256]

/-- Header.pack from proto.py. -/
def Header.pack (h : Header) : List Nat :=
  let cmd := h.cmd &&& 0b0000000000011111
  let cmdid := (h.cmdid <<< 5) &&& 0b0000000011100000
  let cmdpkt := (h.cmdpkt <<< 8) &&& 0b1111111100000000
  u16Bytes (cmd ||| cmdid ||| cmdpkt)

/-- Header.unpack from proto.py.  `struct.unpack` raises on a buffer
shorter than two bytes, and the `Command(cmd)` constructor raises
ValueError for a value outside the enum (0..6). -/
def Header.unpack? (buf : List Nat) : Except String Header :=
  if buf.length < 2 then .error "unpack requires a buffer of 2 bytes" else
  let v := u16At buf 0
  let cmd := v &&& 0b0000000000011111
  let cmdid := (v &&& 0b0000000011100000) >>> 5
  let cmdpkt := (v &&& 0b1111111100000000) >>> 8
  if 6 < cmd then .error "ValueError: not a valid Command"
  else .ok { cmd := cmd, cmdid := cmdid, cmdpkt := cmdpkt }

/-- BlockType dataclass from proto.py. -/
structure BlockType where
  block_shift : Nat
  block_count : Nat
  spare : Nat
deriving DecidableEq, Inhabited

/-- BlockType.pack from proto.py, with the exact masks of the source.
The block count mask covers bits 4 to 10 only. -/
def BlockType.pack (b : BlockType) : List Nat :=
  let packed_block_shift := b.block_shift &&& 0b00000000000000000000000000001111
  let packed_block_count := (b.block_count <<< 4) &&& 0b00000000000000000000011111110000
  let packed_spare := (b.spare <<< 13) &&& 0b11111111111111111110000000000000
  u32Bytes (packed_block_shift ||| packed_block_count ||| packed_spare)

/-- BlockType.unpack from proto.py. -/
def BlockType.unpack? (buf : List Nat) : Except String BlockType :=
  if buf.length < 4 then .error "unpack requires a buffer of 4 bytes" else
  let v := u32At buf 0
  let block_shift := v &&& 0b00000000000000000000000000001111
  let block_count := (v &&& 0b00000000000000000000011111110000) >>> 4
  let spare := (v &&& 0b11111111111111111110000000000000) >>> 13
  .ok { block_shift := block_shift, block_count := block_count, spare := spare }

/-- BlockType.create from proto.py: scan shifts 0..7 for one whose block
size (1 shifted left by shift+2) equals the requested size, else raise
RuntimeError. -/
def BlockType.create (block_count : Nat) (block_size : Nat) : Except String BlockType :=
  match (List.range 8).find? (fun shift => 1 <<< (shift + 2) == block_size) with
  | some shift => .ok { block_shift := shift, block_count := block_count, spare := 0 }
  | none => .error "unsupported block size"

/-- InfoRequest dataclass from proto.py. -/
structure InfoRequest where
  hdr : Header
deriving DecidableEq, Inhabited

/-- InfoRequest.unpack from proto.py. -/
def InfoRequest.unpack? (buf : List Nat) : Except String InfoRequest :=
  (Header.unpack? buf).map (fun h => { hdr := h })

/-- InfoReply dataclass from proto.py. -/
structure InfoReply where
  hdr : Header
  sector_size : Nat
  sector_count : Nat
deriving DecidableEq, Inhabited

/-- InfoReply.pack from proto.py. -/
def InfoReply.pack (r : InfoReply) : List Nat :=
  r.hdr.pack ++ u32Bytes r.sector_size ++ u32Bytes r.sector_count

/-- RWRequest dataclass from proto.py. -/
structure RWRequest where
  hdr : Header
  sector_nr : Nat
  sector_count : Nat
deriving DecidableEq, Inhabited

/-- RWRequest.unpack from proto.py: header in bytes 0..1, sector_nr in
bytes 2..5, sector_count in bytes 6..7; `struct.unpack` raises on a
short buffer. -/
def RWRequest.unpack? (buf : List Nat) : Except String RWRequest :=
  if buf.length < 8 then .error "unpack requires a buffer of 8 bytes" else
  match Header.unpack? buf with
  | .error e => .error e
  | .ok h => .ok { hdr := h, sector_nr := u32At buf 2, sector_count := u16At buf 6 }

/-- WriteReply dataclass from proto.py. -/
structure WriteReply where
  hdr : Header
  result : Nat
deriving DecidableEq, Inhabited

/-- WriteReply.pack from proto.py. -/
def WriteReply.pack (r : WriteReply) : List Nat :=
  r.hdr.pack ++ u32Bytes r.result

/-- RDMAPayload dataclass from proto.py; data is the raw byte list. -/
structure RDMAPayload where
  hdr : Header
  bt : BlockType
  data : List Nat
deriving DecidableEq, Inhabited

/-- RDMAPayload.pack from proto.py. -/
def RDMAPayload.pack (p : RDMAPayload) : List Nat :=
  p.hdr.pack ++ p.bt.pack ++ p.data

/-- RDMAPayload.unpack from proto.py: header in bytes 0..1, BlockType in
bytes 2..5, the remainder of the datagram is the data verbatim. -/
def RDMAPayload.unpack? (buf : List Nat) : Except String RDMAPayload :=
  if buf.length < 6 then .error "unpack requires a buffer of 6 bytes" else
  match Header.unpack? buf with
  | .error e => .error e
  | .ok h =>
    match BlockType.unpack? (buf.drop 2) with
    | .error e => .error e
    | .ok bt => .ok { hdr := h, bt := bt, data := buf.drop 6 }

/-- Block device state, after MemoryBlockDevice in blkdev.py: the byte
buffer, the cursor position in bytes, and the geometry fields stored by
the constructor. -/
structure Device where
  sectorSize : Nat
  sectorCount : Nat
  data : List Nat
  pos : Nat
deriving DecidableEq, Inhabited

/-- MemoryBlockDevice.seek: position the cursor at the byte offset of the
given sector. -/
def Device.seek (d : Device) (sector_offset : Nat) : Device :=
  { d with pos := sector_offset * d.sectorSize }

/-- MemoryBlockDevice.read: return the slice at the cursor (short when the
buffer ends first, exactly like a Python slice) and advance the cursor by
the requested size. -/
def Device.read (d : Device) (size : Nat) : List Nat × Device :=
  ((d.data.drop d.pos).take size, { d with pos := d.pos + size })

/-- MemoryBlockDevice.write: overwrite the slice at the cursor with the
given bytes and advance the cursor by their length.  A Python slice
assignment past the end of the bytearray appends, which the take and drop
below reproduce. -/
def Device.write (d : Device) (bytes : List Nat) : Device :=
  { d with
      data := d.data.take d.pos ++ bytes ++ d.data.drop (d.pos + bytes.length),
      pos := d.pos + bytes.length }

/-- Mutable server state of BlockDeviceServer in server.py (socket and
port omitted).  `_write_size_left` is a signed Python integer. -/
structure ServerState where
  dev : Device
  writeSizeLeft : Int
  blockShift : Nat
  blockSize : Nat
  blocksPerPacket : Nat
  blocksPerSector : Nat
deriving DecidableEq, Inhabited

/-- BlockDeviceServer._set_block_shift: when the shift changes, recompute
the derived block size, blocks per packet and blocks per sector. -/
def setBlockShift (st : ServerState) (shift : Nat) : ServerState :=
  if shift = st.blockShift then st
  else
    let blockSize := 1 <<< (shift + 2)
    { st with
        blockShift := shift
        blockSize := blockSize
        blocksPerPacket := RDMA_MAX_PAYLOAD / blockSize
        blocksPerSector := st.dev.sectorSize / blockSize }

/-- The shift selection computed inline by
BlockDeviceServer._set_block_shift_sectors for a transfer of the given
size in bytes. -/
def selectShift (size : Nat) : Nat :=
  let packetsMIN := (size + 1440 - 1) / 1440
  let packets128 := (size + 1408 - 1) / 1408
  let packets256 := (size + 1280 - 1) / 1280
  let packets512 := (size + 1024 - 1) / 1024
  if packets512 = packetsMIN then 7
  else if packets256 = packetsMIN then 6
  else if packets128 = packetsMIN then 5
  else 3

/-- BlockDeviceServer._set_block_shift_sectors. -/
def setBlockShiftSectors (st : ServerState) (sectors : Nat) : ServerState :=
  setBlockShift st (selectShift (sectors * st.dev.sectorSize))

/-- BlockDeviceServer.__init__: zero the state fields, then set block
shift 5. -/
def initServer (dev : Device) : ServerState :=
  setBlockShift
    { dev := dev, writeSizeLeft := 0, blockShift := 0, blockSize := 0,
      blocksPerPacket := 0, blocksPerSector := 0 } 5

/-- BlockDeviceServer._handle_info_request: reply with the device
geometry, cmd INFO_REPLY, cmdid echoed, cmdpkt 1. -/
def handleInfoRequest (st : ServerState) (req : InfoRequest) : InfoReply :=
  { hdr := { cmd := UDPBD_CMD_INFO_REPLY, cmdid := req.hdr.cmdid, cmdpkt := 1 },
    sector_size := st.dev.sectorSize,
    sector_count := st.dev.sectorCount }

/-- The while loop of BlockDeviceServer._handle_read_request.  The reply
template is built by the handler before the block shift selector runs, so
the shift recorded in the emitted BlockType is passed in separately
(shiftField).  Python terminates because each iteration consumes at least
one block whenever blocksPerPacket is positive (it always is: the block
size is at most 512); the fuel argument, instantiated with the initial
block count, dominates the number of iterations in exactly that case. -/
def readLoop (shiftField cmdid bs bpp : Nat) :
    Nat → Device → Nat → Nat → List RDMAPayload × Device
  | 0, dev, _, _ => ([], dev)
  | fuel + 1, dev, cmdpkt, blocksLeft =>
    if blocksLeft = 0 then ([], dev)
    else
      let n := if bpp < blocksLeft then bpp else blocksLeft
      let r := dev.read (n * bs)
      let rest := readLoop shiftField cmdid bs bpp fuel r.2 (cmdpkt + 1) (blocksLeft - n)
      ({ hdr := { cmd := UDPBD_CMD_READ_RDMA, cmdid := cmdid, cmdpkt := cmdpkt },
         bt := { block_shift := shiftField, block_count := n, spare := 0 },
         data := r.1 } :: rest.1,
       rest.2)

/-- BlockDeviceServer._handle_read_request: build the reply template with
the current (pre-selector) block shift, run the selector, seek, then emit
RDMA packets until no block is left. -/
def handleReadRequest (st : ServerState) (req : RWRequest) :
    ServerState × List RDMAPayload :=
  let oldShift := st.blockShift
  let st1 := setBlockShiftSectors st req.sector_count
  let dev1 := st1.dev.seek req.sector_nr
  let blocksLeft := req.sector_count * st1.blocksPerSector
  let r := readLoop oldShift req.hdr.cmdid st1.blockSize st1.blocksPerPacket
    blocksLeft dev1 1 blocksLeft
  ({ st1 with dev := r.2 }, r.1)

/-- BlockDeviceServer._handle_write_request: seek and arm the write
transaction; nothing is emitted. -/
def handleWriteRequest (st : ServerState) (req : RWRequest) : ServerState :=
  { st with
      dev := st.dev.seek req.sector_nr,
      writeSizeLeft := (req.sector_count * st.dev.sectorSize : Nat) }

/-- The byte size a WRITE_RDMA packet accounts for, derived from its
BlockType fields as in BlockDeviceServer._handle_write_rdma. -/
def rdmaSize (p : RDMAPayload) : Nat :=
  p.bt.block_count * (1 <<< (p.bt.block_shift + 2))

/-- BlockDeviceServer._handle_write_rdma: write the data at the cursor,
subtract the BlockType-derived size, and emit a WriteReply exactly when
the remaining size hits zero. -/
def handleWriteRdma (st : ServerState) (p : RDMAPayload) :
    ServerState × List WriteReply :=
  let size := rdmaSize p
  let dev' := st.dev.write p.data
  let left := st.writeSizeLeft - (size : Int)
  ({ st with dev := dev', writeSizeLeft := left },
   if left = 0 then
     [{ hdr := { cmd := UDPBD_CMD_WRITE_DONE, cmdid := p.hdr.cmdid,
                 cmdpkt := p.hdr.cmdid + 1 },
        result := 0 }]
   else [])

/-- Handling of a whole sequence of WRITE_RDMA datagrams in arrival
order, accumulating the emitted WriteReply frames. -/
def runWriteRdmas (st : ServerState) : List RDMAPayload → ServerState × List WriteReply
  | [] => (st, [])
  | p :: ps =>
    let r := handleWriteRdma st p
    let rest := runWriteRdmas r.1 ps
    (rest.1, r.2 ++ rest.2)

/-- The decoded request kinds the dispatcher of serve distinguishes.  The
source parses READ and WRITE datagrams into one RWRequest class and then
matches on the header command a second time; the constructors here carry
that command choice so the dispatch below need not re-inspect it. -/
inductive Request where
  | info : InfoRequest → Request
  | read : RWRequest → Request
  | write : RWRequest → Request
  | writeRdma : RDMAPayload → Request
deriving DecidableEq

/-- BlockDeviceServer._parse_buffer_by_header: route on the command tag,
raising ValueError for any command that is not INFO, READ, WRITE or
WRITE_RDMA. -/
def parseBufferByHeader (cmd : Nat) (buf : List Nat) : Except String Request :=
  match cmd with
  | 0 => (InfoRequest.unpack? buf).map .info
  | 2 => (RWRequest.unpack? buf).map .read
  | 4 => (RWRequest.unpack? buf).map .write
  | 5 => (RDMAPayload.unpack? buf).map .writeRdma
  | _ => .error "ValueError: Unknown command"

/-- A datagram the server emits: an InfoReply, a READ_RDMA payload, or a
WriteReply. -/
inductive Frame where
  | info : InfoReply → Frame
  | rdma : RDMAPayload → Frame
  | writeDone : WriteReply → Frame
deriving DecidableEq

/-- Serialization of an emitted frame, as passed to sendto. -/
def Frame.pack : Frame → List Nat
  | .info r => r.pack
  | .rdma p => p.pack
  | .writeDone r => r.pack

/-- The match statement of BlockDeviceServer.serve routing a parsed
request to its handler. -/
def dispatch (st : ServerState) : Request → ServerState × List Frame
  | .info r => (st, [.info (handleInfoRequest st r)])
  | .read r =>
    let res := handleReadRequest st r
    (res.1, res.2.map .rdma)
  | .write r => (handleWriteRequest st r, [])
  | .writeRdma p =>
    let res := handleWriteRdma st p
    (res.1, res.2.map .writeDone)

/-- The per-datagram body of BlockDeviceServer.serve: decode the header,
parse the buffer, dispatch.  An error is an uncaught Python exception. -/
def handleDatagram (st : ServerState) (buf : List Nat) :
    Except String (ServerState × List Frame) :=
  match Header.unpack? buf with
  | .error e => .error e
  | .ok hdr =>
    match parseBufferByHeader hdr.cmd buf with
    | .error e => .error e
    | .ok req => .ok (dispatch st req)

/-- The serve loop over a finite arrival sequence: process datagrams in
order; an uncaught exception stops the loop (the Bool records that the
loop ended by an exception rather than by exhausting the input). -/
def serveLoop (st : ServerState) : List (List Nat) → ServerState × List Frame × Bool
  | [] => (st, [], false)
  | buf :: bufs =>
    match handleDatagram st buf with
    | .error _ => (st, [], true)
    | .ok r =>
      let rest := serveLoop r.1 bufs
      (rest.1, r.2 ++ rest.2.1, rest.2.2)

/-- The internal consistency of the derived server fields, together with
the block shift range the selector can produce. -/
def stateConsistent (st : ServerState) : Prop :=
  st.blockSize = 1 <<< (st.blockShift + 2)
  ∧ st.blocksPerPacket = RDMA_MAX_PAYLOAD / st.blockSize
  ∧ st.blocksPerSector = st.dev.sectorSize / st.blockSize
  ∧ st.blockShift ∈ ([3, 5, 6, 7] : List Nat)

instance (st : ServerState) : Decidable (stateConsistent st) := by
  unfold stateConsistent; infer_instance

/-! ## Helper lemmas -/

/-- Ceiling division is invariant under scaling numerator and denominator. -/
theorem ceil_scale (a b c : Nat) (hb : 0 < b) (hc : 0 < c) :
    (a * c + b * c - 1) / (b * c) = (a + b - 1) / b := by
  have hbc : 0 < b * c := Nat.mul_pos hb hc
  rcases Nat.eq_zero_or_pos a with ha | ha
  · subst ha
    simp only [Nat.zero_mul, Nat.zero_add]
    rw [Nat.div_eq_of_lt (by omega), Nat.div_eq_of_lt (by omega)]
  · obtain ⟨q, r, hr, hqr⟩ : ∃ q r, r < b ∧ a - 1 = b * q + r :=
      ⟨(a - 1) / b, (a - 1) % b, Nat.mod_lt _ hb, (Nat.div_add_mod _ _).symm⟩
    have ha' : a = b * q + r + 1 := by omega
    have e3 : (r + 1) * c ≤ b * c := Nat.mul_le_mul_right c (by omega)
    have e4 : r * c + c = (r + 1) * c := by ring
    have hy : 1 ≤ r * c + c := by omega
    have e1' : a * c + b * c = b * c * (q + 1) + (r * c + c) := by subst ha'; ring
    have h1 : a * c + b * c - 1 = b * c * (q + 1) + (r * c + c - 1) := by
      apply Nat.sub_eq_of_eq_add
      rw [e1', Nat.add_assoc, Nat.sub_add_cancel hy]
    have h2 : a + b - 1 = b * (q + 1) + r := by
      have e5 : b * (q + 1) = b * q + b := by ring
      omega
    have h5 : r * c + c ≤ b * c := by rw [e4]; exact e3
    have hlt : r * c + c - 1 < b * c :=
      Nat.lt_of_lt_of_le (Nat.sub_lt (by omega) Nat.one_pos) h5
    rw [h1, h2, Nat.mul_add_div hbc, Nat.mul_add_div hb,
      Nat.div_eq_of_lt hlt, Nat.div_eq_of_lt hr]

/-- One step of the ceiling-division recurrence used by the read loop. -/
theorem ceil_step (bpp blocksLeft n : Nat) (hp : 0 < bpp) (h0 : 0 < blocksLeft)
    (hn : n = if bpp < blocksLeft then bpp else blocksLeft) :
    ((blocksLeft - n) + bpp - 1) / bpp + 1 = (blocksLeft + bpp - 1) / bpp := by
  by_cases h : bpp < blocksLeft
  · rw [if_pos h] at hn
    rw [hn]
    have e : blocksLeft + bpp - 1 = ((blocksLeft - bpp) + bpp - 1) + bpp := by omega
    rw [e, Nat.add_div_right _ hp]
  · rw [if_neg h] at hn
    rw [hn]
    have e1 : blocksLeft - blocksLeft + bpp - 1 = bpp - 1 := by omega
    have e2 : blocksLeft + bpp - 1 = (blocksLeft - 1) + bpp := by omega
    rw [e1, e2, Nat.add_div_right _ hp,
      Nat.div_eq_of_lt (show bpp - 1 < bpp by omega),
      Nat.div_eq_of_lt (show blocksLeft - 1 < bpp by omega)]

/-- Full specification of the read-request emission loop: packet count,
cmdpkt sequence, concatenated data, final device state, and the shape of
every emitted packet. -/
theorem readLoop_spec (sf cid bs bpp : Nat) (hp : 0 < bpp) :
    ∀ (fuel blocksLeft : Nat) (dev : Device) (cp : Nat), blocksLeft ≤ fuel →
    (readLoop sf cid bs bpp fuel dev cp blocksLeft).1.length = (blocksLeft + bpp - 1) / bpp
    ∧ (readLoop sf cid bs bpp fuel dev cp blocksLeft).1.map (fun p => p.hdr.cmdpkt)
        = List.range' cp ((blocksLeft + bpp - 1) / bpp)
    ∧ ((readLoop sf cid bs bpp fuel dev cp blocksLeft).1.map RDMAPayload.data).flatten
        = (dev.data.drop dev.pos).take (blocksLeft * bs)
    ∧ (readLoop sf cid bs bpp fuel dev cp blocksLeft).2
        = { dev with pos := dev.pos + blocksLeft * bs }
    ∧ ∀ p ∈ (readLoop sf cid bs bpp fuel dev cp blocksLeft).1,
        p.hdr.cmd = UDPBD_CMD_READ_RDMA ∧ p.hdr.cmdid = cid ∧ p.bt.block_shift = sf
        ∧ p.bt.spare = 0 ∧ p.bt.block_count ≤ bpp
        ∧ p.data.length ≤ p.bt.block_count * bs := by
  intro fuel
  induction fuel with
  | zero =>
    intro blocksLeft dev cp hf
    have h0 : blocksLeft = 0 := by omega
    subst h0
    simp [readLoop, Nat.div_eq_of_lt (show bpp - 1 < bpp by omega)]
  | succ fuel ih =>
    intro blocksLeft dev cp hf
    by_cases h0 : blocksLeft = 0
    · subst h0
      simp [readLoop, Nat.div_eq_of_lt (show bpp - 1 < bpp by omega)]
    · have hpos : 0 < blocksLeft := by omega
      simp only [readLoop, if_neg h0]
      set n := if bpp < blocksLeft then bpp else blocksLeft with hn
      have hn1 : 0 < n := by rw [hn]; split <;> omega
      have hnle : n ≤ blocksLeft := by rw [hn]; split <;> omega
      have hnbpp : n ≤ bpp := by rw [hn]; split <;> omega
      have hf' : blocksLeft - n ≤ fuel := by omega
      obtain ⟨ihl, ihm, ihj, ihd, ihp⟩ :=
        ih (blocksLeft - n) { dev with pos := dev.pos + n * bs } (cp + 1) hf'
      have hceil := ceil_step bpp blocksLeft n hp hpos hn
      have hmul : n * bs + (blocksLeft - n) * bs = blocksLeft * bs := by
        rw [← Nat.add_mul]; congr 1; omega
      refine ⟨?_, ?_, ?_, ?_, ?_⟩
      · simp only [Device.read, List.length_cons, ihl]
        omega
      · simp only [Device.read, List.map_cons, ihm, ← hceil, List.range'_succ]
      · simp only [Device.read, List.map_cons, List.flatten_cons, ihj]
        rw [← List.drop_drop, ← List.take_add, hmul]
      · simp only [Device.read, ihd]
        congr 1
        omega
      · intro p hmem
        rcases List.mem_cons.mp hmem with hhd | htl
        · subst hhd
          refine ⟨rfl, rfl, rfl, rfl, hnbpp, ?_⟩
          show ((dev.data.drop dev.pos).take (n * bs)).length ≤ n * bs
          exact List.length_take_le _ _
        · exact ihp p htl

/-- Every packet the read loop emits carries at most a full packet of
data, hence at most 1466 bytes whenever the configured capacity respects
that bound. -/
theorem readLoop_data_le (sf cid bs bpp : Nat) (hcap : bpp * bs ≤ 1466) :
    ∀ (fuel : Nat) (dev : Device) (cp blocksLeft : Nat),
    ∀ p ∈ (readLoop sf cid bs bpp fuel dev cp blocksLeft).1, p.data.length ≤ 1466 := by
  intro fuel
  induction fuel with
  | zero => intro dev cp blocksLeft p hmem; simp [readLoop] at hmem
  | succ fuel ih =>
    intro dev cp blocksLeft p hmem
    by_cases h0 : blocksLeft = 0
    · subst h0; simp [readLoop] at hmem
    · simp only [readLoop, if_neg h0] at hmem
      rcases List.mem_cons.mp hmem with hhd | htl
      · subst hhd
        have hn : (if bpp < blocksLeft then bpp else blocksLeft) ≤ bpp := by
          split <;> omega
        show ((dev.data.drop dev.pos).take
          ((if bpp < blocksLeft then bpp else blocksLeft) * bs)).length ≤ 1466
        calc ((dev.data.drop dev.pos).take
                ((if bpp < blocksLeft then bpp else blocksLeft) * bs)).length
            ≤ (if bpp < blocksLeft then bpp else blocksLeft) * bs :=
              List.length_take_le _ _
          _ ≤ bpp * bs := Nat.mul_le_mul_right bs hn
          _ ≤ 1466 := hcap
      · exact ih _ _ _ p htl

/-- The read loop never changes the device buffer or its geometry. -/
theorem readLoop_dev_fields (sf cid bs bpp : Nat) :
    ∀ (fuel : Nat) (dev : Device) (cp blocksLeft : Nat),
    (readLoop sf cid bs bpp fuel dev cp blocksLeft).2.sectorSize = dev.sectorSize
    ∧ (readLoop sf cid bs bpp fuel dev cp blocksLeft).2.data = dev.data := by
  intro fuel
  induction fuel with
  | zero => intro dev cp blocksLeft; exact ⟨rfl, rfl⟩
  | succ fuel ih =>
    intro dev cp blocksLeft
    by_cases h0 : blocksLeft = 0
    · simp [readLoop, h0]
    · simp only [readLoop, if_neg h0, Device.read]
      exact ih _ _ _

/-- The block shift setter always records the requested shift. -/
theorem setBlockShift_blockShift (st : ServerState) (s : Nat) :
    (setBlockShift st s).blockShift = s := by
  unfold setBlockShift
  split
  · next h => exact h.symm
  · rfl

/-- The block shift setter leaves the device and the write counter
untouched. -/
theorem setBlockShift_dev (st : ServerState) (s : Nat) :
    (setBlockShift st s).dev = st.dev ∧
    (setBlockShift st s).writeSizeLeft = st.writeSizeLeft := by
  unfold setBlockShift
  split <;> exact ⟨rfl, rfl⟩

/-- The block shift setter preserves state consistency: when the shift is
unchanged it returns the state as is, otherwise it recomputes every
derived field from the new shift. -/
theorem setBlockShift_consistent (st : ServerState) (s : Nat)
    (hc : stateConsistent st) (hs : s ∈ ([3, 5, 6, 7] : List Nat)) :
    stateConsistent (setBlockShift st s) := by
  unfold setBlockShift
  split
  · exact hc
  · exact ⟨rfl, rfl, rfl, hs⟩

/-- The selector only ever produces the shifts 3, 5, 6 and 7. -/
theorem selectShift_mem (size : Nat) :
    selectShift size ∈ ([3, 5, 6, 7] : List Nat) := by
  simp only [selectShift]
  split
  · decide
  · split
    · decide
    · split <;> decide

/-- The block sizes of the selectable shifts all divide 512. -/
theorem selectShift_blockSize_dvd (size : Nat) :
    (1 <<< (selectShift size + 2)) ∣ 512 := by
  have h := selectShift_mem size
  simp only [List.mem_cons, List.not_mem_nil, or_false] at h
  rcases h with h | h | h | h <;> rw [h] <;> decide

/-- The blocks-per-packet count of any selectable shift is positive. -/
theorem selectShift_bpp_pos (size : Nat) :
    0 < RDMA_MAX_PAYLOAD / (1 <<< (selectShift size + 2)) := by
  have h := selectShift_mem size
  simp only [List.mem_cons, List.not_mem_nil, or_false] at h
  rcases h with h | h | h | h <;> rw [h] <;> decide

/-- The last element of a nonempty list does not depend on the default
argument of getLastD. -/
theorem getLastD_irrel {α : Type} (l : List α) (h : l ≠ []) (a b : α) :
    l.getLastD a = l.getLastD b := by
  cases l with
  | nil => exact absurd rfl h
  | cons x xs => rfl

/-- Dropping past an aligned prefix of known length skips it. -/
theorem drop_append_aligned {α : Type} (C D : List α) (k m : Nat) (h : C.length = k) :
    List.drop (k + m) (C ++ D) = List.drop m D := by
  rw [← List.drop_drop, List.drop_left' h]

/-- Full specification of a WRITE_RDMA burst whose per-packet sizes are
positive, match the data lengths, and sum to the armed write size: the
device receives the concatenated data at the cursor, the cursor advances
by the total, the remaining size reaches zero, and exactly one
WRITE_DONE reply is produced, tagged by the last packet. -/
theorem runWriteRdmas_spec :
    ∀ (ps : List RDMAPayload) (st : ServerState), ps ≠ [] →
    (∀ p ∈ ps, 0 < rdmaSize p ∧ p.data.length = rdmaSize p) →
    st.writeSizeLeft = ((ps.map rdmaSize).sum : Int) →
    st.dev.pos + (ps.map rdmaSize).sum ≤ st.dev.data.length →
    (runWriteRdmas st ps).2
      = [{ hdr := { cmd := UDPBD_CMD_WRITE_DONE,
                    cmdid := (ps.getLastD default).hdr.cmdid,
                    cmdpkt := (ps.getLastD default).hdr.cmdid + 1 }, result := 0 }]
    ∧ (runWriteRdmas st ps).1.writeSizeLeft = 0
    ∧ (runWriteRdmas st ps).1.dev.pos = st.dev.pos + (ps.map rdmaSize).sum
    ∧ (runWriteRdmas st ps).1.dev.data
        = st.dev.data.take st.dev.pos ++ (ps.map RDMAPayload.data).flatten
          ++ st.dev.data.drop (st.dev.pos + (ps.map rdmaSize).sum)
    ∧ (runWriteRdmas st ps).1.dev.sectorSize = st.dev.sectorSize := by
  intro ps
  induction ps with
  | nil => intro st hne; exact absurd rfl hne
  | cons p ps ih =>
    intro st hne hprops hleft hbound
    obtain ⟨hp0, hplen⟩ := hprops p (List.mem_cons_self p ps)
    simp only [List.map_cons, List.sum_cons] at hleft hbound ⊢
    have hposle : st.dev.pos ≤ st.dev.data.length := by omega
    have hAlen : (st.dev.data.take st.dev.pos ++ p.data).length
        = st.dev.pos + p.data.length := by
      simp only [List.length_append, List.length_take]
      omega
    by_cases hps : ps = []
    · subst hps
      have hcond : st.writeSizeLeft - (rdmaSize p : Int) = 0 := by
        rw [hleft]; simp
      refine ⟨?_, ?_, ?_, ?_, ?_⟩
      · simp [runWriteRdmas, handleWriteRdma, hcond]
      · simp [runWriteRdmas, handleWriteRdma, hcond]
      · simp [runWriteRdmas, handleWriteRdma, hcond, Device.write, hplen]
      · simp [runWriteRdmas, handleWriteRdma, hcond, Device.write, hplen]
      · simp [runWriteRdmas, handleWriteRdma, hcond, Device.write]
    · have hsum0 : 0 < (ps.map rdmaSize).sum := by
        cases ps with
        | nil => exact absurd rfl hps
        | cons q qs =>
          have hq := (hprops q (by simp)).1
          simp only [List.map_cons, List.sum_cons]
          omega
      have hleft' : st.writeSizeLeft - (rdmaSize p : Int)
          = ((ps.map rdmaSize).sum : Int) := by
        rw [hleft]; push_cast; ring
      have hne0 : ¬ (st.writeSizeLeft - (rdmaSize p : Int) = 0) := by
        rw [hleft']
        simp only [Int.natCast_eq_zero]
        omega
      obtain ⟨ih1, ih2, ih3, ih4, ih5⟩ :=
        ih { st with
              dev := st.dev.write p.data,
              writeSizeLeft := st.writeSizeLeft - (rdmaSize p : Int) }
          hps (fun q hq => hprops q (List.mem_cons_of_mem p hq)) hleft'
          (by
            show (st.dev.write p.data).pos + (ps.map rdmaSize).sum
              ≤ (st.dev.write p.data).data.length
            have hwlen : (st.dev.write p.data).data.length = st.dev.data.length := by
              simp only [Device.write, List.length_append, List.length_take,
                List.length_drop]
              omega
            have hwpos : (st.dev.write p.data).pos = st.dev.pos + p.data.length := rfl
            rw [hwlen, hwpos, hplen]
            omega)
      have hwpos : (st.dev.write p.data).pos = st.dev.pos + p.data.length := rfl
      have hwdata : (st.dev.write p.data).data
          = (st.dev.data.take st.dev.pos ++ p.data)
            ++ st.dev.data.drop (st.dev.pos + p.data.length) := rfl
      simp only [runWriteRdmas, handleWriteRdma, if_neg hne0, List.nil_append]
      refine ⟨?_, ih2, ?_, ?_, ?_⟩
      · rw [ih1, List.getLastD_cons, getLastD_irrel ps hps p default]
      · rw [ih3, hwpos, hplen]
        omega
      · have hidx : st.dev.pos + (rdmaSize p + (ps.map rdmaSize).sum)
            = st.dev.pos + p.data.length + (ps.map rdmaSize).sum := by
          omega
        rw [ih4, hwpos, hwdata, hidx, List.take_left' hAlen,
          drop_append_aligned _ _ _ _ hAlen, List.drop_drop, List.flatten_cons]
        simp [List.append_assoc]
      · rw [ih5]
        rfl

/-- Block size of a given shift, as recomputed by the shift setter. -/
def blockSizeAtShift (s : Nat) : Nat := 1 <<< (s + 2)

/-- Blocks per packet of a given shift. -/
def blocksPerPacketAtShift (s : Nat) : Nat := RDMA_MAX_PAYLOAD / blockSizeAtShift s

/-- Number of READ_RDMA datagrams a transfer of the given byte size needs
at a given shift: the ceiling of the size over the per-packet capacity. -/
def packetCountAtShift (bytes s : Nat) : Nat :=
  (bytes + blocksPerPacketAtShift s * blockSizeAtShift s - 1)
    / (blocksPerPacketAtShift s * blockSizeAtShift s)

/-- Ceiling division bounded by a value is the same as the dividend being
bounded by the corresponding multiple. -/
theorem ceil_div_le_iff (size d m : Nat) (hd : 0 < d) :
    (size + d - 1) / d ≤ m ↔ size ≤ m * d := by
  rw [Nat.div_le_iff_le_mul_add_pred hd]
  have hcomm : d * m = m * d := Nat.mul_comm d m
  omega

/-- Ceiling division is antitone in the divisor. -/
theorem ceil_mono_divisor (size d1 d2 : Nat) (h1 : 0 < d1) (h2 : 0 < d2)
    (h : d2 ≤ d1) :
    (size + d1 - 1) / d1 ≤ (size + d2 - 1) / d2 := by
  rw [ceil_div_le_iff _ _ _ h1]
  have hle : size ≤ ((size + d2 - 1) / d2) * d2 := by
    rw [← ceil_div_le_iff _ _ _ h2]
  exact le_trans hle (Nat.mul_le_mul_left _ h)

/-- The shift selector computes exactly the ceiling comparisons stated in
the specification. -/
theorem selectShift_formula (size : Nat) :
    selectShift size
      = if (size + 1023) / 1024 = (size + 1439) / 1440 then 7
        else if (size + 1279) / 1280 = (size + 1439) / 1440 then 6
        else if (size + 1407) / 1408 = (size + 1439) / 1440 then 5
        else 3 := by
  simp only [selectShift]
  rw [show size + 1440 - 1 = size + 1439 by omega,
    show size + 1408 - 1 = size + 1407 by omega,
    show size + 1280 - 1 = size + 1279 by omega,
    show size + 1024 - 1 = size + 1023 by omega]

/-- The packet counts at the four selectable shifts, written with their
per-packet byte capacities. -/
theorem packetCountAtShift_eval (size : Nat) :
    packetCountAtShift size 3 = (size + 1440 - 1) / 1440
    ∧ packetCountAtShift size 5 = (size + 1408 - 1) / 1408
    ∧ packetCountAtShift size 6 = (size + 1280 - 1) / 1280
    ∧ packetCountAtShift size 7 = (size + 1024 - 1) / 1024 := by
  refine ⟨rfl, rfl, rfl, rfl⟩

/-- The shift the selector picks attains the minimum packet count among
the selectable shifts. -/
theorem selectShift_minimal (size : Nat) (s : Nat)
    (hs : s ∈ ([3, 5, 6, 7] : List Nat)) :
    packetCountAtShift size (selectShift size) ≤ packetCountAtShift size s := by
  obtain ⟨hc3, hc5, hc6, hc7⟩ := packetCountAtShift_eval size
  have hmin : ∀ t ∈ ([3, 5, 6, 7] : List Nat),
      (size + 1440 - 1) / 1440 ≤ packetCountAtShift size t := by
    intro t ht
    simp only [List.mem_cons, List.not_mem_nil, or_false] at ht
    rcases ht with ht | ht | ht | ht <;> subst ht
    · rw [hc3]
    · rw [hc5]; exact ceil_mono_divisor size 1440 1408 (by omega) (by omega) (by omega)
    · rw [hc6]; exact ceil_mono_divisor size 1440 1280 (by omega) (by omega) (by omega)
    · rw [hc7]; exact ceil_mono_divisor size 1440 1024 (by omega) (by omega) (by omega)
  simp only [selectShift]
  split
  · next hcond => rw [hc7, hcond]; exact hmin s hs
  · split
    · next hcond => rw [hc6, hcond]; exact hmin s hs
    · split
      · next hcond => rw [hc5, hcond]; exact hmin s hs
      · rw [hc3]; exact hmin s hs

/-- Per-packet capacity never exceeds the RDMA payload limit. -/
theorem capacity_le (s : Nat) :
    blocksPerPacketAtShift s * blockSizeAtShift s ≤ 1466 := by
  simp only [blocksPerPacketAtShift, RDMA_MAX_PAYLOAD]
  exact Nat.div_mul_le_self _ _

/-- The sector setter does not touch the device or the write counter. -/
theorem setBlockShiftSectors_dev (st : ServerState) (n : Nat) :
    (setBlockShiftSectors st n).dev = st.dev :=
  (setBlockShift_dev st _).1

/-- The sector setter records the selected shift. -/
theorem setBlockShiftSectors_blockShift (st : ServerState) (n : Nat) :
    (setBlockShiftSectors st n).blockShift = selectShift (n * st.dev.sectorSize) :=
  setBlockShift_blockShift st _

/-- C1 (amended): for every READ request of at least one sector on a
consistent server whose device sector size is a multiple of 512 (the
geometry of the UDPBD protocol; for other sector sizes the claim fails,
see the counterexample below), with the device holding the requested
range and the resulting packet count at most 255, the handler emits
exactly the ceiling of N times sector size over the packet capacity many
READ_RDMA datagrams; their data concatenates to exactly the device bytes
starting at sector_nr times sector size, with total length N times
sector size, and their cmdpkt fields are 1, 2, ... in emission order. -/
theorem claim_read_stream (st : ServerState) (req : RWRequest)
    (hss : 512 ∣ st.dev.sectorSize)
    (hc : stateConsistent st)
    (hN : 1 ≤ req.sector_count)
    (hdev : req.sector_nr * st.dev.sectorSize + req.sector_count * st.dev.sectorSize
      ≤ st.dev.data.length)
    (hpk : (handleReadRequest st req).2.length ≤ 255) :
    (handleReadRequest st req).2.length
      = (req.sector_count * st.dev.sectorSize
          + (setBlockShiftSectors st req.sector_count).blocksPerPacket
            * (setBlockShiftSectors st req.sector_count).blockSize - 1)
        / ((setBlockShiftSectors st req.sector_count).blocksPerPacket
            * (setBlockShiftSectors st req.sector_count).blockSize)
    ∧ ((handleReadRequest st req).2.map RDMAPayload.data).flatten.length
        = req.sector_count * st.dev.sectorSize
    ∧ ((handleReadRequest st req).2.map RDMAPayload.data).flatten
        = (st.dev.data.drop (req.sector_nr * st.dev.sectorSize)).take
            (req.sector_count * st.dev.sectorSize)
    ∧ (handleReadRequest st req).2.map (fun p => p.hdr.cmdpkt)
        = List.range' 1 (handleReadRequest st req).2.length := by
  set st1 := setBlockShiftSectors st req.sector_count with hst1
  have hdev1 : st1.dev = st.dev := setBlockShiftSectors_dev st _
  have hsh : st1.blockShift = selectShift (req.sector_count * st.dev.sectorSize) :=
    setBlockShiftSectors_blockShift st _
  have hc1 : stateConsistent st1 :=
    setBlockShift_consistent _ _ hc (selectShift_mem _)
  obtain ⟨hbs, hbpp, hbps, hmem⟩ := hc1
  have hbspos : 0 < st1.blockSize := by
    rw [hbs, Nat.shiftLeft_eq, Nat.one_mul]
    exact Nat.two_pow_pos _
  have hbpppos : 0 < st1.blocksPerPacket := by
    rw [hbpp, hbs, hsh]
    exact selectShift_bpp_pos _
  have hdvd : st1.blockSize ∣ st.dev.sectorSize := by
    rw [hbs, hsh]
    exact dvd_trans (selectShift_blockSize_dvd _) hss
  have hBbs : req.sector_count * st1.blocksPerSector * st1.blockSize
      = req.sector_count * st.dev.sectorSize := by
    rw [hbps, hdev1, Nat.mul_assoc, Nat.div_mul_cancel hdvd]
  obtain ⟨hlen, hmap, hjoin, hdev2, hpkts⟩ :=
    readLoop_spec st.blockShift req.hdr.cmdid st1.blockSize st1.blocksPerPacket
      hbpppos (req.sector_count * st1.blocksPerSector)
      (req.sector_count * st1.blocksPerSector)
      (st1.dev.seek req.sector_nr) 1 (Nat.le_refl _)
  have hpk2 : (handleReadRequest st req).2
      = (readLoop st.blockShift req.hdr.cmdid st1.blockSize st1.blocksPerPacket
          (req.sector_count * st1.blocksPerSector) (st1.dev.seek req.sector_nr) 1
          (req.sector_count * st1.blocksPerSector)).1 := by
    simp only [handleReadRequest, hst1]
  have hseekdata : (st1.dev.seek req.sector_nr).data = st.dev.data := by
    rw [hdev1]; rfl
  have hseekpos : (st1.dev.seek req.sector_nr).pos
      = req.sector_nr * st.dev.sectorSize := by
    rw [hdev1]; rfl
  rw [hpk2]
  refine ⟨?_, ?_, ?_, ?_⟩
  · rw [hlen, ← hBbs,
      ceil_scale (req.sector_count * st1.blocksPerSector) st1.blocksPerPacket
        st1.blockSize hbpppos hbspos]
  · rw [hjoin, hseekdata, hseekpos, hBbs]
    simp only [List.length_take, List.length_drop]
    omega
  · rw [hjoin, hseekdata, hseekpos, hBbs]
  · rw [hmap, hlen]

/-- A fresh server over an empty memory device with the standard
geometry: sector size 512, sector count 32768 (a 16 MiB device). -/
def devC : Device := { sectorSize := 512, sectorCount := 32768, data := [], pos := 0 }

/-- Server constructed over devC. -/
def serverC : ServerState := initServer devC

/-- A device holding one sector of bytes 2, standard geometry. -/
def devR : Device :=
  { sectorSize := 512, sectorCount := 32768, data := List.replicate 512 2, pos := 0 }

/-- Server constructed over devR. -/
def serverR : ServerState := initServer devR

/-- A READ request for one sector at sector 0. -/
def reqR : RWRequest :=
  { hdr := { cmd := 2, cmdid := 1, cmdpkt := 0 }, sector_nr := 0, sector_count := 1 }

/-- Witness for C1 at a concrete one-sector READ. -/
theorem claim_read_stream_witness :
    (512 ∣ serverR.dev.sectorSize)
    ∧ stateConsistent serverR
    ∧ 1 ≤ reqR.sector_count
    ∧ (reqR.sector_nr * serverR.dev.sectorSize
        + reqR.sector_count * serverR.dev.sectorSize ≤ serverR.dev.data.length)
    ∧ (handleReadRequest serverR reqR).2.length ≤ 255
    ∧ ((handleReadRequest serverR reqR).2.length
        = (reqR.sector_count * serverR.dev.sectorSize
            + (setBlockShiftSectors serverR reqR.sector_count).blocksPerPacket
              * (setBlockShiftSectors serverR reqR.sector_count).blockSize - 1)
          / ((setBlockShiftSectors serverR reqR.sector_count).blocksPerPacket
              * (setBlockShiftSectors serverR reqR.sector_count).blockSize)
      ∧ ((handleReadRequest serverR reqR).2.map RDMAPayload.data).flatten.length
          = reqR.sector_count * serverR.dev.sectorSize
      ∧ ((handleReadRequest serverR reqR).2.map RDMAPayload.data).flatten
          = (serverR.dev.data.drop (reqR.sector_nr * serverR.dev.sectorSize)).take
              (reqR.sector_count * serverR.dev.sectorSize)
      ∧ (handleReadRequest serverR reqR).2.map (fun p => p.hdr.cmdpkt)
          = List.range' 1 (handleReadRequest serverR reqR).2.length) :=
  ⟨by decide, by decide, by decide, by decide, by decide,
    claim_read_stream serverR reqR (by decide) (by decide) (by decide) (by decide)
      (by decide)⟩

/-- C3: for every sector count in the stated range with sector size 512,
the selector implements exactly the three ceiling comparisons of the
specification, the packet count at the selected shift is minimal among
the selectable shifts, and no packet the read loop emits at the selected
configuration carries more than 1466 data bytes. -/
theorem claim_shift_selector (n : Nat) (h1 : 1 ≤ n) (h2 : n ≤ 4096) :
    (selectShift (n * 512)
      = if (n * 512 + 1023) / 1024 = (n * 512 + 1439) / 1440 then 7
        else if (n * 512 + 1279) / 1280 = (n * 512 + 1439) / 1440 then 6
        else if (n * 512 + 1407) / 1408 = (n * 512 + 1439) / 1440 then 5
        else 3)
    ∧ (∀ s ∈ ([3, 5, 6, 7] : List Nat),
        packetCountAtShift (n * 512) (selectShift (n * 512))
          ≤ packetCountAtShift (n * 512) s)
    ∧ blocksPerPacketAtShift (selectShift (n * 512))
        * blockSizeAtShift (selectShift (n * 512)) ≤ 1466
    ∧ ∀ (sf cid fuel cp bl : Nat) (dev : Device),
        ∀ p ∈ (readLoop sf cid (blockSizeAtShift (selectShift (n * 512)))
            (blocksPerPacketAtShift (selectShift (n * 512))) fuel dev cp bl).1,
          p.data.length ≤ 1466 :=
  ⟨selectShift_formula _, fun s hs => selectShift_minimal _ s hs, capacity_le _,
    fun sf cid fuel cp bl dev =>
      readLoop_data_le sf cid _ _ (capacity_le _) fuel dev cp bl⟩

/-- Witness for C3 at the concrete sector count 3. -/
theorem claim_shift_selector_witness :
    1 ≤ 3 ∧ 3 ≤ 4096
    ∧ ((selectShift (3 * 512)
        = if (3 * 512 + 1023) / 1024 = (3 * 512 + 1439) / 1440 then 7
          else if (3 * 512 + 1279) / 1280 = (3 * 512 + 1439) / 1440 then 6
          else if (3 * 512 + 1407) / 1408 = (3 * 512 + 1439) / 1440 then 5
          else 3)
      ∧ (∀ s ∈ ([3, 5, 6, 7] : List Nat),
          packetCountAtShift (3 * 512) (selectShift (3 * 512))
            ≤ packetCountAtShift (3 * 512) s)
      ∧ blocksPerPacketAtShift (selectShift (3 * 512))
          * blockSizeAtShift (selectShift (3 * 512)) ≤ 1466
      ∧ ∀ (sf cid fuel cp bl : Nat) (dev : Device),
          ∀ p ∈ (readLoop sf cid (blockSizeAtShift (selectShift (3 * 512)))
              (blocksPerPacketAtShift (selectShift (3 * 512))) fuel dev cp bl).1,
            p.data.length ≤ 1466) :=
  ⟨by decide, by decide, claim_shift_selector 3 (by decide) (by decide)⟩

/-- The state returned by the READ handler keeps the shift fields of the
post-selector state and the device geometry. -/
theorem handleReadRequest_state (st : ServerState) (r : RWRequest) :
    (handleReadRequest st r).1.blockShift
      = (setBlockShiftSectors st r.sector_count).blockShift
    ∧ (handleReadRequest st r).1.blockSize
      = (setBlockShiftSectors st r.sector_count).blockSize
    ∧ (handleReadRequest st r).1.blocksPerPacket
      = (setBlockShiftSectors st r.sector_count).blocksPerPacket
    ∧ (handleReadRequest st r).1.blocksPerSector
      = (setBlockShiftSectors st r.sector_count).blocksPerSector
    ∧ (handleReadRequest st r).1.dev.sectorSize = st.dev.sectorSize := by
  refine ⟨rfl, rfl, rfl, rfl, ?_⟩
  simp only [handleReadRequest]
  rw [(readLoop_dev_fields _ _ _ _ _ _ _ _).1, setBlockShiftSectors_dev]
  rfl

/-- Dispatching any decoded request preserves the consistency invariant
of the server state. -/
theorem dispatch_consistent (st : ServerState) (req : Request)
    (hc : stateConsistent st) : stateConsistent (dispatch st req).1 := by
  cases req with
  | info r => exact hc
  | read r =>
    obtain ⟨e1, e2, e3, e4, e5⟩ := handleReadRequest_state st r
    obtain ⟨a, b, c, d⟩ :=
      setBlockShift_consistent st (selectShift (r.sector_count * st.dev.sectorSize))
        hc (selectShift_mem _)
    rw [(setBlockShift_dev st _).1] at c
    show stateConsistent (handleReadRequest st r).1
    refine ⟨?_, ?_, ?_, ?_⟩
    · rw [e2, e1]; exact a
    · rw [e3, e2]; exact b
    · rw [e4, e5, e2]; exact c
    · rw [e1]; exact d
  | write r => exact hc
  | writeRdma p => exact hc

/-- C10: a consistent server state stays consistent across any
successfully handled datagram; construction yields block shift 5 with all
derived fields consistent, and the shift stays in the selectable set. -/
theorem claim_state_invariant (st : ServerState) (buf : List Nat)
    (st' : ServerState) (outs : List Frame)
    (hc : stateConsistent st)
    (hok : handleDatagram st buf = .ok (st', outs)) :
    stateConsistent st'
    ∧ (∀ d : Device, (initServer d).blockShift = 5 ∧ stateConsistent (initServer d)) := by
  constructor
  · unfold handleDatagram at hok
    cases hu : Header.unpack? buf with
    | error e => rw [hu] at hok; simp at hok
    | ok hdr =>
      rw [hu] at hok
      cases hp : parseBufferByHeader hdr.cmd buf with
      | error e => simp [hp] at hok
      | ok req =>
        simp [hp] at hok
        have h1 : (dispatch st req).1 = st' := by rw [hok]
        rw [← h1]
        exact dispatch_consistent st req hc
  · intro d
    exact ⟨rfl, rfl, rfl, rfl, (by decide : (5 : Nat) ∈ ([3, 5, 6, 7] : List Nat))⟩

/-- Witness for C10: the INFO datagram on the fresh standard server. -/
theorem claim_state_invariant_witness :
    stateConsistent serverC
    ∧ handleDatagram serverC [0, 0]
        = .ok (serverC,
            [.info { hdr := { cmd := 1, cmdid := 0, cmdpkt := 1 },
                     sector_size := 512, sector_count := 32768 }])
    ∧ (stateConsistent serverC
      ∧ ∀ d : Device, (initServer d).blockShift = 5 ∧ stateConsistent (initServer d)) :=
  ⟨by decide, by decide,
    claim_state_invariant serverC [0, 0] serverC
      [.info { hdr := { cmd := 1, cmdid := 0, cmdpkt := 1 },
               sector_size := 512, sector_count := 32768 }]
      (by decide) (by decide)⟩

/-- C2 (amended): a WRITE of N sectors followed by WRITE_RDMA datagrams
with positive BlockType-derived sizes matching their data lengths and
summing to N times sector size produces no reply in phase one and exactly
one WRITE_DONE reply at the last datagram, echoing its cmdid with cmdpkt
one above it and result 0; afterwards the device bytes of the written
range equal the concatenated data and the device length is unchanged. -/
theorem claim_write_transaction (st : ServerState) (req : RWRequest)
    (ps : List RDMAPayload)
    (hne : ps ≠ [])
    (hsz : ∀ p ∈ ps, 0 < rdmaSize p ∧ p.data.length = rdmaSize p)
    (hsum : (ps.map rdmaSize).sum = req.sector_count * st.dev.sectorSize)
    (hN : 1 ≤ req.sector_count)
    (hbound : req.sector_nr * st.dev.sectorSize
        + req.sector_count * st.dev.sectorSize ≤ st.dev.data.length) :
    (dispatch st (.write req)).2 = []
    ∧ (runWriteRdmas (handleWriteRequest st req) ps).2
        = [{ hdr := { cmd := UDPBD_CMD_WRITE_DONE,
                      cmdid := (ps.getLastD default).hdr.cmdid,
                      cmdpkt := (ps.getLastD default).hdr.cmdid + 1 }, result := 0 }]
    ∧ ((runWriteRdmas (handleWriteRequest st req) ps).1.dev.data.drop
          (req.sector_nr * st.dev.sectorSize)).take
        (req.sector_count * st.dev.sectorSize)
        = (ps.map RDMAPayload.data).flatten
    ∧ (runWriteRdmas (handleWriteRequest st req) ps).1.dev.data.length
        = st.dev.data.length
    ∧ (runWriteRdmas (handleWriteRequest st req) ps).1.writeSizeLeft = 0 := by
  have hpos : (handleWriteRequest st req).dev.pos
      = req.sector_nr * st.dev.sectorSize := rfl
  have hdata : (handleWriteRequest st req).dev.data = st.dev.data := rfl
  have hleft : (handleWriteRequest st req).writeSizeLeft
      = ((ps.map rdmaSize).sum : Int) := by
    show ((req.sector_count * st.dev.sectorSize : Nat) : Int) = _
    rw [hsum]
  have hbound' : (handleWriteRequest st req).dev.pos + (ps.map rdmaSize).sum
      ≤ (handleWriteRequest st req).dev.data.length := by
    rw [hpos, hdata, hsum]
    exact hbound
  obtain ⟨o1, o2, o3, o4, o5⟩ :=
    runWriteRdmas_spec ps (handleWriteRequest st req) hne hsz hleft hbound'
  have hlens : (ps.map RDMAPayload.data).map List.length = ps.map rdmaSize := by
    rw [List.map_map]
    exact List.map_congr_left (fun p hp => (hsz p hp).2)
  have hF : (ps.map RDMAPayload.data).flatten.length
      = req.sector_count * st.dev.sectorSize := by
    rw [List.length_flatten, hlens, hsum]
  have hA : ((handleWriteRequest st req).dev.data.take
      (handleWriteRequest st req).dev.pos).length
      = req.sector_nr * st.dev.sectorSize := by
    rw [hpos, hdata]
    simp only [List.length_take]
    omega
  refine ⟨rfl, o1, ?_, ?_, o2⟩
  · rw [o4, hpos, hdata]
    have hA' : (st.dev.data.take (req.sector_nr * st.dev.sectorSize)).length
        = req.sector_nr * st.dev.sectorSize := by
      simp only [List.length_take]
      omega
    rw [List.append_assoc, List.drop_left' hA', List.take_left' hF]
  · rw [o4, hpos, hdata, hsum]
    simp only [List.length_append, List.length_take, List.length_drop, hF]
    omega

/-- A fresh server over a tiny 32-byte-sector memory device, used for the
C2 counterexample. -/
def serverM : ServerState :=
  initServer { sectorSize := 32, sectorCount := 8, data := List.replicate 32 0, pos := 0 }

/-- A WRITE request for one sector at sector 0 on serverM. -/
def reqM : RWRequest :=
  { hdr := { cmd := 4, cmdid := 2, cmdpkt := 0 }, sector_nr := 0, sector_count := 1 }

/-- A WRITE_RDMA datagram carrying one 32-byte block. -/
def pM1 : RDMAPayload :=
  { hdr := { cmd := 5, cmdid := 2, cmdpkt := 0 },
    bt := { block_shift := 3, block_count := 1, spare := 0 },
    data := List.replicate 32 9 }

/-- A WRITE_RDMA datagram carrying zero blocks and no data. -/
def pM2 : RDMAPayload :=
  { hdr := { cmd := 5, cmdid := 3, cmdpkt := 0 },
    bt := { block_shift := 3, block_count := 0, spare := 0 },
    data := [] }

/-- C2 counterexample: after a WRITE of one sector, the burst pM1, pM2
has sizes matching its data fields and summing to exactly one sector,
yet the server emits two WriteReply datagrams, not exactly one. -/
theorem claim_write_transaction_cex :
    rdmaSize pM1 + rdmaSize pM2 = reqM.sector_count * serverM.dev.sectorSize
    ∧ pM1.data.length = rdmaSize pM1
    ∧ pM2.data.length = rdmaSize pM2
    ∧ (runWriteRdmas (handleWriteRequest serverM reqM) [pM1, pM2]).2.length = 2 := by
  decide

/-- A WRITE request for one sector at sector 0 on serverR. -/
def reqW : RWRequest :=
  { hdr := { cmd := 4, cmdid := 2, cmdpkt := 0 }, sector_nr := 0, sector_count := 1 }

/-- A WRITE_RDMA datagram carrying one 512-byte block of bytes 9. -/
def pW : RDMAPayload :=
  { hdr := { cmd := 5, cmdid := 2, cmdpkt := 0 },
    bt := { block_shift := 7, block_count := 1, spare := 0 },
    data := List.replicate 512 9 }

/-- Witness for C2 at a concrete one-sector WRITE. -/
theorem claim_write_transaction_witness :
    ([pW] : List RDMAPayload) ≠ []
    ∧ (∀ p ∈ [pW], 0 < rdmaSize p ∧ p.data.length = rdmaSize p)
    ∧ ([pW].map rdmaSize).sum = reqW.sector_count * serverR.dev.sectorSize
    ∧ 1 ≤ reqW.sector_count
    ∧ (reqW.sector_nr * serverR.dev.sectorSize
        + reqW.sector_count * serverR.dev.sectorSize ≤ serverR.dev.data.length)
    ∧ ((dispatch serverR (.write reqW)).2 = []
      ∧ (runWriteRdmas (handleWriteRequest serverR reqW) [pW]).2
          = [{ hdr := { cmd := UDPBD_CMD_WRITE_DONE,
                        cmdid := ([pW].getLastD default).hdr.cmdid,
                        cmdpkt := ([pW].getLastD default).hdr.cmdid + 1 }, result := 0 }]
      ∧ ((runWriteRdmas (handleWriteRequest serverR reqW) [pW]).1.dev.data.drop
            (reqW.sector_nr * serverR.dev.sectorSize)).take
          (reqW.sector_count * serverR.dev.sectorSize)
          = ([pW].map RDMAPayload.data).flatten
      ∧ (runWriteRdmas (handleWriteRequest serverR reqW) [pW]).1.dev.data.length
          = serverR.dev.data.length
      ∧ (runWriteRdmas (handleWriteRequest serverR reqW) [pW]).1.writeSizeLeft = 0) :=
  ⟨by decide, by decide, by decide, by decide, by decide,
    claim_write_transaction serverR reqW [pW] (by decide) (by decide) (by decide)
      (by decide) (by decide)⟩

/-- C4 (code bug): the claimed nine-bit round trip fails, because the
pack mask of block_count keeps only bits 4 to 10; packing block_count 128
and unpacking yields block_count 0. -/
theorem claim_blocktype_roundtrip_bug :
    BlockType.unpack? (BlockType.pack { block_shift := 3, block_count := 128, spare := 0 })
      = .ok { block_shift := 3, block_count := 0, spare := 0 }
    ∧ ({ block_shift := 3, block_count := 0, spare := 0 } : BlockType)
      ≠ { block_shift := 3, block_count := 128, spare := 0 } := by
  decide

/-- C5 (code bug): for a one-sector READ on a fresh server (shift 5), the
selector picks shift 7, yet the emitted packet carries block_shift 5 (the
pre-selector value, because the reply template is built before the
selector runs) with 512 data bytes, which is not block_count times the
block size of the carried shift. -/
theorem claim_read_shift_stale :
    (setBlockShiftSectors serverR reqR.sector_count).blockShift = 7
    ∧ (handleReadRequest serverR reqR).2.map (fun p => p.bt.block_shift) = [5]
    ∧ (handleReadRequest serverR reqR).2.map (fun p => p.bt.block_count) = [1]
    ∧ (handleReadRequest serverR reqR).2.map (fun p => p.data.length) = [512]
    ∧ (512 : Nat) ≠ 1 * (1 <<< (5 + 2)) := by
  decide

/-- C6 (amended): a datagram whose decoded cmd is not INFO, READ, WRITE
or WRITE_RDMA raises an uncaught ValueError: no reply is emitted and the
state is unchanged, but the serve loop terminates instead of continuing
with later datagrams. -/
theorem claim_invalid_command (st : ServerState) (buf : List Nat)
    (rest : List (List Nat))
    (hlen : 2 ≤ buf.length)
    (hcmd : (u16At buf 0) &&& 0b0000000000011111 ∉ ([0, 2, 4, 5] : List Nat)) :
    (∃ e, handleDatagram st buf = .error e)
    ∧ serveLoop st (buf :: rest) = (st, [], true) := by
  have key : ∃ e, handleDatagram st buf = .error e := by
    have hc31 : u16At buf 0 &&& 0b0000000000011111 ≤ 0b0000000000011111 :=
      Nat.and_le_right
    simp only [List.mem_cons, List.not_mem_nil, or_false, not_or] at hcmd
    simp only [handleDatagram, Header.unpack?]
    rw [if_neg (show ¬ buf.length < 2 by omega)]
    by_cases h7 : 6 < u16At buf 0 &&& 0b0000000000011111
    · rw [if_pos h7]
      exact ⟨_, rfl⟩
    · rw [if_neg h7]
      have hcase : u16At buf 0 &&& 0b0000000000011111 = 1
          ∨ u16At buf 0 &&& 0b0000000000011111 = 3
          ∨ u16At buf 0 &&& 0b0000000000011111 = 6 := by omega
      rcases hcase with h | h | h <;> rw [h] <;> exact ⟨_, rfl⟩
  obtain ⟨e, he⟩ := key
  exact ⟨⟨e, he⟩, by simp [serveLoop, he]⟩

/-- C6 counterexample: the unknown command 7 stops the loop, so the valid
INFO datagram behind it is never answered, while alone it would be. -/
theorem claim_invalid_command_cex :
    serveLoop serverC [[7, 0], [0, 0]] = (serverC, [], true)
    ∧ serveLoop serverC [[0, 0]]
        = (serverC, [.info { hdr := { cmd := 1, cmdid := 0, cmdpkt := 1 },
                             sector_size := 512, sector_count := 32768 }], false) := by
  decide

/-- Witness for C6 at the concrete unknown command 7. -/
theorem claim_invalid_command_witness :
    2 ≤ ([7, 0] : List Nat).length
    ∧ ((u16At [7, 0] 0) &&& 0b0000000000011111 ∉ ([0, 2, 4, 5] : List Nat))
    ∧ ((∃ e, handleDatagram serverC [7, 0] = .error e)
      ∧ serveLoop serverC [[7, 0]] = (serverC, [], true)) :=
  ⟨by decide, by decide, claim_invalid_command serverC [7, 0] [] (by decide) (by decide)⟩

/-- C7 (amended): a WRITE_RDMA arriving while no WRITE is in flight is
not dropped: the data is written at the cursor, write_size_left becomes
the negated size, and a WRITE_DONE is emitted exactly when that size is
zero. -/
theorem claim_stray_write_rdma (st : ServerState) (p : RDMAPayload)
    (h0 : st.writeSizeLeft = 0) :
    (handleWriteRdma st p).1.dev = st.dev.write p.data
    ∧ (handleWriteRdma st p).1.writeSizeLeft = -(rdmaSize p : Int)
    ∧ (handleWriteRdma st p).2
        = (if rdmaSize p = 0
            then [{ hdr := { cmd := UDPBD_CMD_WRITE_DONE, cmdid := p.hdr.cmdid,
                             cmdpkt := p.hdr.cmdid + 1 }, result := 0 }]
            else []) := by
  refine ⟨rfl, ?_, ?_⟩
  · show st.writeSizeLeft - (rdmaSize p : Int) = -(rdmaSize p : Int)
    rw [h0]
    ring
  · by_cases hz : rdmaSize p = 0
    · have hc : st.writeSizeLeft - (rdmaSize p : Int) = 0 := by
        rw [h0, hz]
        simp
      simp only [handleWriteRdma]
      rw [if_pos hc, if_pos hz]
    · have hc : ¬ (st.writeSizeLeft - (rdmaSize p : Int) = 0) := by
        rw [h0, zero_sub]
        simp only [neg_eq_zero, Int.natCast_eq_zero]
        exact hz
      simp only [handleWriteRdma]
      rw [if_neg hc, if_neg hz]

/-- A fresh standard server over a 32-byte buffer, write slot idle. -/
def serverW : ServerState :=
  initServer { sectorSize := 512, sectorCount := 32768,
               data := List.replicate 32 0, pos := 0 }

/-- A stray WRITE_RDMA carrying one 32-byte block of bytes 7. -/
def pW7 : RDMAPayload :=
  { hdr := { cmd := 5, cmdid := 0, cmdpkt := 0 },
    bt := { block_shift := 3, block_count := 1, spare := 0 },
    data := List.replicate 32 7 }

/-- C7 counterexample: with write_size_left zero, a stray WRITE_RDMA
changes the device contents and drives write_size_left to minus 32,
contradicting the claim that it is dropped with state unchanged. -/
theorem claim_stray_write_rdma_cex :
    serverW.writeSizeLeft = 0
    ∧ (handleWriteRdma serverW pW7).1.dev.data ≠ serverW.dev.data
    ∧ (handleWriteRdma serverW pW7).1.dev.pos ≠ serverW.dev.pos
    ∧ (handleWriteRdma serverW pW7).1.writeSizeLeft = -32
    ∧ (handleWriteRdma serverW pW7).2 = [] := by
  decide

/-- Witness for C7 at the concrete stray datagram pW7. -/
theorem claim_stray_write_rdma_witness :
    serverW.writeSizeLeft = 0
    ∧ ((handleWriteRdma serverW pW7).1.dev = serverW.dev.write pW7.data
      ∧ (handleWriteRdma serverW pW7).1.writeSizeLeft = -(rdmaSize pW7 : Int)
      ∧ (handleWriteRdma serverW pW7).2
          = (if rdmaSize pW7 = 0
              then [{ hdr := { cmd := UDPBD_CMD_WRITE_DONE, cmdid := pW7.hdr.cmdid,
                               cmdpkt := pW7.hdr.cmdid + 1 }, result := 0 }]
              else [])) :=
  ⟨by decide, claim_stray_write_rdma serverW pW7 (by decide)⟩

/-- C8 (amended): BlockType.create succeeds exactly for the block sizes
4, 8, 16, 32, 64, 128, 256 and 512 (the sizes 1 shifted left by shift+2
for shifts 0 to 7), returning the matching shift with the requested count
and spare 0; every other size raises the unsupported-block-size error. -/
theorem claim_blocktype_create (count size : Nat) :
    ((∃ b, BlockType.create count size = .ok b)
      ↔ size ∈ ([4, 8, 16, 32, 64, 128, 256, 512] : List Nat))
    ∧ ∀ b, BlockType.create count size = .ok b →
        b.block_count = count ∧ b.spare = 0 ∧ 1 <<< (b.block_shift + 2) = size := by
  constructor
  · constructor
    · rintro ⟨b, hb⟩
      unfold BlockType.create at hb
      cases hf : (List.range 8).find? (fun shift => 1 <<< (shift + 2) == size) with
      | none => rw [hf] at hb; simp at hb
      | some sft =>
        have hlt : sft < 8 := List.mem_range.mp (List.mem_of_find?_eq_some hf)
        have heq := List.find?_some hf
        simp only [beq_iff_eq] at heq
        have hsz : 1 <<< (sft + 2) = size := heq
        subst hsz
        interval_cases sft <;> decide
    · intro hmem
      simp only [List.mem_cons, List.not_mem_nil, or_false] at hmem
      rcases hmem with h | h | h | h | h | h | h | h <;> subst h <;> exact ⟨_, rfl⟩
  · intro b hb
    unfold BlockType.create at hb
    cases hf : (List.range 8).find? (fun shift => 1 <<< (shift + 2) == size) with
    | none => rw [hf] at hb; simp at hb
    | some sft =>
      rw [hf] at hb
      simp only [Except.ok.injEq] at hb
      subst hb
      have heq := List.find?_some hf
      simp only [beq_iff_eq] at heq
      exact ⟨rfl, rfl, heq⟩

/-- C8 counterexample: the sizes 4, 8 and 16 do not fail; the code
accepts every shift in range 8, including shifts 0, 1 and 2. -/
theorem claim_blocktype_create_cex :
    BlockType.create 1 4 = .ok { block_shift := 0, block_count := 1, spare := 0 }
    ∧ BlockType.create 1 8 = .ok { block_shift := 1, block_count := 1, spare := 0 }
    ∧ BlockType.create 1 16 = .ok { block_shift := 2, block_count := 1, spare := 0 } := by
  decide

/-- Witness for C8 at the concrete size 128. -/
theorem claim_blocktype_create_witness :
    ((∃ b, BlockType.create 11 128 = .ok b)
      ↔ 128 ∈ ([4, 8, 16, 32, 64, 128, 256, 512] : List Nat))
    ∧ ∀ b, BlockType.create 11 128 = .ok b →
        b.block_count = 11 ∧ b.spare = 0 ∧ 1 <<< (b.block_shift + 2) = 128 :=
  claim_blocktype_create 11 128

/-- C9 (amended): on the standard 512 by 32768 device, the INFO request
bytes 20 00 (cmd 0, cmdid 1, cmdpkt 0) produce exactly one reply whose
bytes are 21 01 00 02 00 00 00 80 00 00 (cmd 1, cmdid 1, cmdpkt 1,
sector_size 0x200, sector_count 0x8000). -/
theorem claim_info_concrete :
    handleDatagram serverC [0x20, 0x00]
      = .ok (serverC,
          [.info { hdr := { cmd := 1, cmdid := 1, cmdpkt := 1 },
                   sector_size := 512, sector_count := 32768 }])
    ∧ Frame.pack (.info { hdr := { cmd := 1, cmdid := 1, cmdpkt := 1 },
                          sector_size := 512, sector_count := 32768 })
        = [0x21, 0x01, 0x00, 0x02, 0x00, 0x00, 0x00, 0x80, 0x00, 0x00] := by
  decide

/-- C9 counterexample: the request bytes 01 00 stated by the claim decode
to cmd 1 (INFO_REPLY), not cmd 0, and handling them raises instead of
producing the claimed reply: no datagram is emitted at all. -/
theorem claim_info_concrete_cex :
    Header.unpack? [0x01, 0x00] = .ok { cmd := 1, cmdid := 0, cmdpkt := 0 }
    ∧ serveLoop serverC [[0x01, 0x00]] = (serverC, [], true) := by
  decide

/-- A fresh server over a device with the non-standard sector size 256
(constructible with the --sector-size option), holding two sectors. -/
def server256 : ServerState :=
  initServer { sectorSize := 256, sectorCount := 65536,
               data := List.replicate 512 1, pos := 0 }

/-- A READ request for one sector at sector 0 on server256. -/
def req256 : RWRequest :=
  { hdr := { cmd := 2, cmdid := 0, cmdpkt := 0 }, sector_nr := 0, sector_count := 1 }

/-- C1 counterexample: with sector size 256 every side condition of the
claim holds (one sector requested, the device holds the range, the packet
count is at most 255), and the claimed packet count is ceil(256/1024) = 1,
yet the server emits zero READ_RDMA datagrams with zero data bytes: the
selector picks shift 7, blocks_per_sector truncates to 256 / 512 = 0,
and the emission loop never runs. -/
theorem claim_read_stream_cex :
    stateConsistent server256
    ∧ 1 ≤ req256.sector_count
    ∧ req256.sector_nr * server256.dev.sectorSize
        + req256.sector_count * server256.dev.sectorSize ≤ server256.dev.data.length
    ∧ (handleReadRequest server256 req256).2.length ≤ 255
    ∧ (setBlockShiftSectors server256 req256.sector_count).blockShift = 7
    ∧ (req256.sector_count * server256.dev.sectorSize
        + (setBlockShiftSectors server256 req256.sector_count).blocksPerPacket
          * (setBlockShiftSectors server256 req256.sector_count).blockSize - 1)
      / ((setBlockShiftSectors server256 req256.sector_count).blocksPerPacket
          * (setBlockShiftSectors server256 req256.sector_count).blockSize) = 1
    ∧ (handleReadRequest server256 req256).2.length = 0
    ∧ ((handleReadRequest server256 req256).2.map RDMAPayload.data).flatten.length = 0 := by
  decide
